import Mathlib

/-!
Verification of the DSA backend (`src/rust/src/backend/dsa.rs`).

The Rust file is a thin wrapper around an external cryptographic primitives
library (OpenSSL via rust-openssl): structs `DsaPrivateKey`, `DsaPublicKey`,
`DsaParameters` hold primitive handles, and the methods forward to primitive
calls after converting host integers through `utils::py_int_to_bn` /
`utils::bn_to_py_int`.

Embedding conventions:
  * Host (Python) integers are `ℤ`; primitive big integers (`BIGNUM`) are `ℕ`.
  * Byte strings are `List ℕ`; a digest algorithm is the digest function it
    denotes (`List ℕ → ℕ`), deterministic per the spec's digest contract.
  * A DSA signature is the pair (r, s); the byte-level (DER) framing of the
    pair is an external-collaborator concern per the spec and is not modelled.
  * Rust `Result` is `Except`; a Rust `.unwrap()` on an error (a panic, which
    aborts the call rather than returning) is the distinguished outcome
    `POutcome.panicked`.
  * Primitive-library behaviour (OpenSSL) and the helpers from
    `backend/utils.rs` are not part of `src/`; they are modelled from the
    spec, each marked `Modelled from the spec:` in its doc comment.
-/

/-- Error kinds of the wrapper library, from spec §7. `openSSLError` stands for
a primitive-library `ErrorStack` wrapped by the `?` operator's `From`
conversion (spec: "Errors from the primitives collaborator are wrapped"). -/
inductive CryptographyError where
  | invalidSignature
  | invalidNumeric
  | invalidParameters
  | generationError
  | serializationError
  | openSSLError
deriving DecidableEq, Repr

/-- Errors reported by the primitive (OpenSSL) library itself. -/
inductive ErrorStack where
  | algebraicReject
  | malformedInput
  | internalError
deriving DecidableEq, Repr

/-- Outcome of a Rust function that may return `Ok`, return `Err`, or abort
with a panic (a `.unwrap()` applied to an `Err`). -/
inductive POutcome (α : Type) where
  | ok (a : α)
  | err (e : CryptographyError)
  | panicked
deriving DecidableEq, Repr

/-- Modelled from the spec (§4.1 NumericBridge, §7 InvalidNumeric):
`utils::py_int_to_bn` (in `backend/utils.rs`, not under `src/`) converts a
host integer to a primitive big integer; negative integers "MUST fail fast
with an InvalidNumeric error rather than silently wrapping or
sign-extending". -/
def py_int_to_bn (z : ℤ) : Except CryptographyError ℕ :=
  if z < 0 then .error .invalidNumeric else .ok z.toNat

/-- Modelled from the spec (§4.1): `utils::bn_to_py_int` converts a primitive
big integer back to a host integer "without precision loss or sign
ambiguity". -/
def bn_to_py_int (n : ℕ) : ℤ :=
  (n : ℤ)

/-- Modelled from the spec (§4.2): the algebraic-consistency condition the
primitive library checks for a (p, q, g) triple — "q does not divide p−1, or
g is not in the valid range" are its examples of rejection, and §3 gives the
valid range of g as 1 < g < p. -/
def pqgConsistent (p q g : ℕ) : Prop :=
  q ∣ p - 1 ∧ 1 < g ∧ g < p

instance (p q g : ℕ) : Decidable (pqgConsistent p q g) := by
  unfold pqgConsistent; infer_instance

/-- Primitive handle for DSA domain parameters (`openssl::dsa::Dsa<Params>`),
carrying (p, q, g). -/
structure DsaHandleParams where
  p : ℕ
  q : ℕ
  g : ℕ
deriving DecidableEq, Repr

/-- Primitive handle for a DSA private key (`Dsa<Private>` inside a `PKey`),
carrying (p, q, g), the secret exponent x (`priv_key`) and the public value y
(`pub_key`). -/
structure DsaHandlePriv where
  p : ℕ
  q : ℕ
  g : ℕ
  x : ℕ
  y : ℕ
deriving DecidableEq, Repr

/-- Primitive handle for a DSA public key (`Dsa<Public>` inside a `PKey`),
carrying (p, q, g) and the public value y. -/
structure DsaHandlePub where
  p : ℕ
  q : ℕ
  g : ℕ
  y : ℕ
deriving DecidableEq, Repr

/-- Modelled from the spec (§4.2 `from_components`): `openssl::dsa::Dsa::from_pqg`
"MUST fail ... if the primitive library rejects the values as algebraically
inconsistent"; this is the primitive side of that delegation: it rejects the
triple exactly when `pqgConsistent` fails. -/
def opensslFromPqg (p q g : ℕ) : Except ErrorStack DsaHandleParams :=
  if pqgConsistent p q g then .ok ⟨p, q, g⟩ else .error .algebraicReject

/-- Modelled from the spec (§9 open question): components supplied to
`openssl::dsa::Dsa::from_private_components` are "trusted as caller-correct";
the primitive stores them without algebraic validation. -/
def opensslFromPrivateComponents (p q g x y : ℕ) : Except ErrorStack DsaHandlePriv :=
  .ok ⟨p, q, g, x, y⟩

/-- Modelled from the spec (§9 open question): components supplied to
`openssl::dsa::Dsa::from_public_components` are "trusted as caller-correct". -/
def opensslFromPublicComponents (p q g y : ℕ) : Except ErrorStack DsaHandlePub :=
  .ok ⟨p, q, g, y⟩

/-- Modelled from the spec (glossary, §4.3): the primitive DSA signing
operation over a digest H with per-signature nonce k:
r = (g^k mod p) mod q and s = k⁻¹·(H + x·r) mod q, the modular inverse being
taken by Fermat's little theorem (k^(q−2) mod q). The nonce is "owned by the
external primitive"; it is surfaced here as an explicit argument. -/
def dsaPrimSign (p q g x H k : ℕ) : ℕ × ℕ :=
  (g ^ k % p % q, k ^ (q - 2) % q * (H + x * (g ^ k % p % q)) % q)

/-- Modelled from the spec (glossary, §4.4): the primitive DSA verification
predicate: accept (r, s) iff 0 < r < q, 0 < s < q and
(g^(H·w) · y^(r·w) mod p) mod q = r where w = s⁻¹ mod q. -/
def dsaPrimVerify (p q g y H : ℕ) (sig : ℕ × ℕ) : Bool :=
  decide (0 < sig.1 ∧ sig.1 < q ∧ 0 < sig.2 ∧ sig.2 < q) &&
    decide (g ^ (H * (sig.2 ^ (q - 2) % q) % q) *
        y ^ (sig.1 * (sig.2 ^ (q - 2) % q) % q) % p % q = sig.1)

/-- Digest algorithms are modelled by the digest function they denote
(spec §4.3: "deterministic, fixed-length output for fixed input"). -/
abbrev DigestAlg := List ℕ → ℕ

/-- Modelled from the spec (§4.3, §6): `utils::calculate_digest_and_algorithm`
(in `backend/utils.rs`, not under `src/`) computes the digest of the data
with the supplied algorithm and returns both. -/
def calculate_digest_and_algorithm (data : List ℕ) (algorithm : DigestAlg) :
    Except CryptographyError (ℕ × DigestAlg) :=
  .ok (algorithm data, algorithm)

/-- Rust `Result::unwrap_or` specialised to the primitive verify call. -/
def unwrapOr (res : Except ErrorStack Bool) (dflt : Bool) : Bool :=
  match res with
  | .ok b => b
  | .error _ => dflt

/-- The wrapper struct `DsaPrivateKey { pkey }` from `dsa.rs`. -/
structure DsaPrivateKey where
  pkey : DsaHandlePriv
deriving DecidableEq, Repr

/-- The wrapper struct `DsaPublicKey { pkey }` from `dsa.rs`. -/
structure DsaPublicKey where
  pkey : DsaHandlePub
deriving DecidableEq, Repr

/-- The wrapper struct `DsaParameters { dsa }` from `dsa.rs`. -/
structure DsaParameters where
  dsa : DsaHandleParams
deriving DecidableEq, Repr

/-- The Python-side `DSAParameterNumbers` record (p, q, g) accessed by the
constructors, per spec §9: "a structured bundle of named big integers". -/
structure DsaParameterNumbers where
  p : ℤ
  q : ℤ
  g : ℤ
deriving DecidableEq, Repr

/-- The Python-side `DSAPublicNumbers` record (y plus parameter numbers). -/
structure DsaPublicNumbers where
  y : ℤ
  parameter_numbers : DsaParameterNumbers
deriving DecidableEq, Repr

/-- The Python-side `DSAPrivateNumbers` record (x plus public numbers). -/
structure DsaPrivateNumbers where
  x : ℤ
  public_numbers : DsaPublicNumbers
deriving DecidableEq, Repr

/-- `from_parameter_numbers` from `dsa.rs`: converts p, q, g in order through
`py_int_to_bn` (each conversion error propagating via `?`), then calls
`Dsa::from_pqg(..).unwrap()` — a primitive rejection is unwrapped, i.e. the
call aborts with a panic instead of returning an error. -/
def from_parameter_numbers (numbers : DsaParameterNumbers) : POutcome DsaParameters :=
  match py_int_to_bn numbers.p, py_int_to_bn numbers.q, py_int_to_bn numbers.g with
  | .error e, _, _ => .err e
  | _, .error e, _ => .err e
  | _, _, .error e => .err e
  | .ok bp, .ok bq, .ok bg =>
    match opensslFromPqg bp bq bg with
    | .error _ => .panicked
    | .ok dsa => .ok ⟨dsa⟩

/-- `from_public_numbers` from `dsa.rs`: converts p, q, g, y in order through
`py_int_to_bn`, then `Dsa::from_public_components(..).unwrap()` and
`PKey::from_dsa`. -/
def from_public_numbers (numbers : DsaPublicNumbers) : POutcome DsaPublicKey :=
  match py_int_to_bn numbers.parameter_numbers.p, py_int_to_bn numbers.parameter_numbers.q,
      py_int_to_bn numbers.parameter_numbers.g, py_int_to_bn numbers.y with
  | .error e, _, _, _ => .err e
  | _, .error e, _, _ => .err e
  | _, _, .error e, _ => .err e
  | _, _, _, .error e => .err e
  | .ok bp, .ok bq, .ok bg, .ok by_ =>
    match opensslFromPublicComponents bp bq bg by_ with
    | .error _ => .panicked
    | .ok dsa => .ok ⟨dsa⟩

/-- `from_private_numbers` from `dsa.rs`: converts p, q, g, x, y in order
through `py_int_to_bn`, then `Dsa::from_private_components(..).unwrap()` and
`PKey::from_dsa`. -/
def from_private_numbers (numbers : DsaPrivateNumbers) : POutcome DsaPrivateKey :=
  match py_int_to_bn numbers.public_numbers.parameter_numbers.p,
      py_int_to_bn numbers.public_numbers.parameter_numbers.q,
      py_int_to_bn numbers.public_numbers.parameter_numbers.g,
      py_int_to_bn numbers.x, py_int_to_bn numbers.public_numbers.y with
  | .error e, _, _, _, _ => .err e
  | _, .error e, _, _, _ => .err e
  | _, _, .error e, _, _ => .err e
  | _, _, _, .error e, _ => .err e
  | _, _, _, _, .error e => .err e
  | .ok bp, .ok bq, .ok bg, .ok bx, .ok by_ =>
    match opensslFromPrivateComponents bp bq bg bx by_ with
    | .error _ => .panicked
    | .ok dsa => .ok ⟨dsa⟩

/-- `clone_dsa_params` from `dsa.rs`: rebuilds a fresh `Dsa<Params>` from
owned copies of the handle's p, q, g via `Dsa::from_pqg`. -/
def clone_dsa_params (p q g : ℕ) : Except ErrorStack DsaHandleParams :=
  opensslFromPqg p q g

/-- `BN_num_bits` (`p().num_bits()`): the number of significant bits of a big
integer, as `Nat.size`. The Rust signature returns the count as an `i32`;
the value is modelled in `ℤ`. -/
def num_bits (n : ℕ) : ℤ :=
  (n.size : ℤ)

/-- `DsaPrivateKey::sign` from `dsa.rs`: digest the data with the supplied
algorithm (any digest-stage error propagating via `?`), then produce the
primitive DSA signature over the digest. The primitive's per-signature nonce
is the explicit argument `k`. -/
def DsaPrivateKey.sign (key : DsaPrivateKey) (data : List ℕ) (algorithm : DigestAlg)
    (k : ℕ) : Except CryptographyError (ℕ × ℕ) :=
  match calculate_digest_and_algorithm data algorithm with
  | .error e => .error e
  | .ok (digest, _) =>
    .ok (dsaPrimSign key.pkey.p key.pkey.q key.pkey.g key.pkey.x digest k)

/-- `DsaPrivateKey::key_size` from `dsa.rs`: `self.pkey.dsa().unwrap().p().num_bits()`. -/
def DsaPrivateKey.key_size (key : DsaPrivateKey) : ℤ :=
  num_bits key.pkey.p

/-- `DsaPrivateKey::public_key` from `dsa.rs`: rebuilds a public key from
owned copies of the private handle's p, q, g and pub_key (y) via
`Dsa::from_public_components` and `PKey::from_dsa`. -/
def DsaPrivateKey.public_key (key : DsaPrivateKey) : Except CryptographyError DsaPublicKey :=
  match opensslFromPublicComponents key.pkey.p key.pkey.q key.pkey.g key.pkey.y with
  | .error _ => .error .openSSLError
  | .ok dsa => .ok ⟨dsa⟩

/-- `DsaPrivateKey::parameters` from `dsa.rs`: `clone_dsa_params(..)?`, the
primitive error being wrapped by `?`. -/
def DsaPrivateKey.parameters (key : DsaPrivateKey) : Except CryptographyError DsaParameters :=
  match clone_dsa_params key.pkey.p key.pkey.q key.pkey.g with
  | .error _ => .error .openSSLError
  | .ok dsa => .ok ⟨dsa⟩

/-- `DsaPrivateKey::private_numbers` from `dsa.rs`: exports (x, (y, (p, q, g)))
through `bn_to_py_int`. -/
def DsaPrivateKey.private_numbers (key : DsaPrivateKey) :
    Except CryptographyError DsaPrivateNumbers :=
  .ok ⟨bn_to_py_int key.pkey.x,
    ⟨bn_to_py_int key.pkey.y,
      ⟨bn_to_py_int key.pkey.p, bn_to_py_int key.pkey.q, bn_to_py_int key.pkey.g⟩⟩⟩

/-- The verification-result handling of `DsaPublicKey::verify` from `dsa.rs`:
`let valid = verifier.verify(data, signature).unwrap_or(false);
if !valid { return Err(InvalidSignature); } Ok(())`. -/
def verifyFromPrim (primResult : Except ErrorStack Bool) : Except CryptographyError Unit :=
  if !(unwrapOr primResult false) then .error .invalidSignature else .ok ()

/-- The primitive verify call `verifier.verify(data, signature)` made by
`DsaPublicKey::verify`; with a well-formed (r, s) signature it reports the
result of the DSA verification predicate. -/
def pkeyCtxVerify (key : DsaHandlePub) (digest : ℕ) (sig : ℕ × ℕ) :
    Except ErrorStack Bool :=
  .ok (dsaPrimVerify key.p key.q key.g key.y digest sig)

/-- `DsaPublicKey::verify` from `dsa.rs`: digest the data, run the primitive
verification, and collapse every non-valid outcome to `InvalidSignature`. -/
def DsaPublicKey.verify (key : DsaPublicKey) (signature : ℕ × ℕ) (data : List ℕ)
    (algorithm : DigestAlg) : Except CryptographyError Unit :=
  match calculate_digest_and_algorithm data algorithm with
  | .error e => .error e
  | .ok (digest, _) => verifyFromPrim (pkeyCtxVerify key.pkey digest signature)

/-- `DsaPublicKey::key_size` from `dsa.rs`. -/
def DsaPublicKey.key_size (key : DsaPublicKey) : ℤ :=
  num_bits key.pkey.p

/-- `DsaPublicKey::parameters` from `dsa.rs`. -/
def DsaPublicKey.parameters (key : DsaPublicKey) : Except CryptographyError DsaParameters :=
  match clone_dsa_params key.pkey.p key.pkey.q key.pkey.g with
  | .error _ => .error .openSSLError
  | .ok dsa => .ok ⟨dsa⟩

/-- `DsaPublicKey::public_numbers` from `dsa.rs`: exports (y, (p, q, g)). -/
def DsaPublicKey.public_numbers (key : DsaPublicKey) :
    Except CryptographyError DsaPublicNumbers :=
  .ok ⟨bn_to_py_int key.pkey.y,
    ⟨bn_to_py_int key.pkey.p, bn_to_py_int key.pkey.q, bn_to_py_int key.pkey.g⟩⟩

/-- `EVP_PKEY_eq` (`pkey.public_eq`): structural comparison of the public
material (p, q, g, y), per spec §4.4 `equals`. -/
def public_eq (a b : DsaHandlePub) : Bool :=
  decide (a.p = b.p ∧ a.q = b.q ∧ a.g = b.g ∧ a.y = b.y)

/-- `DsaPublicKey::__eq__` from `dsa.rs`: `self.pkey.public_eq(&other.pkey)`. -/
def DsaPublicKey.eqPy (a b : DsaPublicKey) : Bool :=
  public_eq a.pkey b.pkey

/-- `DsaPublicKey::__copy__` from `dsa.rs`: returns `slf` itself. -/
def DsaPublicKey.copyPy (slf : DsaPublicKey) : DsaPublicKey :=
  slf

/-- `DsaParameters::generate_private_key` from `dsa.rs`:
`clone_dsa_params(&self.dsa)?.generate_key()?`. Modelled from the spec
(§4.2): `generate_key` "draws a fresh secret exponent x uniformly in (0, q)
and derives y"; the drawn exponent is the explicit argument `x`. -/
def DsaParameters.generate_private_key (ps : DsaParameters) (x : ℕ) :
    Except CryptographyError DsaPrivateKey :=
  match clone_dsa_params ps.dsa.p ps.dsa.q ps.dsa.g with
  | .error _ => .error .openSSLError
  | .ok d => .ok ⟨⟨d.p, d.q, d.g, x, d.g ^ x % d.p⟩⟩

/-- `DsaParameters::parameter_numbers` from `dsa.rs`: exports (p, q, g)
through `bn_to_py_int`. -/
def DsaParameters.parameter_numbers (ps : DsaParameters) :
    Except CryptographyError DsaParameterNumbers :=
  .ok ⟨bn_to_py_int ps.dsa.p, bn_to_py_int ps.dsa.q, bn_to_py_int ps.dsa.g⟩

/-! ## Arithmetic lemmas for the DSA sign/verify correctness argument -/

/-- Fermat inverse: in `ZMod q` with q prime, `a ^ (q - 2)` is the
multiplicative inverse of a nonzero a. -/
theorem zmod_pow_sub_two_inv {q : ℕ} [Fact q.Prime] {a : ZMod q} (ha : a ≠ 0) :
    a ^ (q - 2) = a⁻¹ := by
  have h1 : a ^ (q - 1) = 1 := ZMod.pow_card_sub_one_eq_one ha
  have hq2 : 2 ≤ q := (Fact.out : q.Prime).two_le
  have h2 : a ^ (q - 2) * a = 1 := by
    rw [← pow_succ]
    have h3 : q - 2 + 1 = q - 1 := by omega
    rw [h3, h1]
  exact eq_inv_of_mul_eq_one_left h2

/-- Exponents of g may be reduced modulo q when `g ^ q ≡ 1 (mod p)`, ordered
case. -/
theorem pow_mod_congr_le (p q g a b : ℕ) (hp1 : 1 < p) (hgq : g ^ q % p = 1)
    (hab : a ≡ b [MOD q]) (h : b ≤ a) : g ^ a % p = g ^ b % p := by
  obtain ⟨t, ht⟩ : ∃ t, a = b + q * t := by
    obtain ⟨t, ht⟩ := (Nat.modEq_iff_dvd' h).mp hab.symm
    exact ⟨t, by omega⟩
  subst ht
  have h4 : (g ^ q) ^ t % p = 1 := by
    rw [Nat.pow_mod, hgq, one_pow, Nat.mod_eq_of_lt hp1]
  rw [pow_add, pow_mul, Nat.mul_mod, h4, mul_one, Nat.mod_mod_of_dvd _ dvd_rfl]

/-- Exponents of g may be reduced modulo q when `g ^ q ≡ 1 (mod p)`. -/
theorem pow_mod_congr (p q g a b : ℕ) (hp1 : 1 < p) (hgq : g ^ q % p = 1)
    (hab : a ≡ b [MOD q]) : g ^ a % p = g ^ b % p := by
  rcases le_total b a with h | h
  · exact pow_mod_congr_le p q g a b hp1 hgq hab h
  · exact (pow_mod_congr_le p q g b a hp1 hgq hab.symm h).symm

/-- Core congruence of DSA verification: with w = s⁻¹ mod q and
s ≡ k⁻¹·(H + x·r) (mod q), the recombined exponent H·w + x·(r·w) is congruent
to the nonce k modulo q. -/
theorem dsa_exponent_congr (q H x r k s : ℕ) (hq : q.Prime)
    (hknq : ¬ q ∣ k) (hsnq : ¬ q ∣ s)
    (hs_cast : ((s : ℕ) : ZMod q) =
      (((k : ℕ) : ZMod q))⁻¹ *
        (((H : ℕ) : ZMod q) + ((x : ℕ) : ZMod q) * ((r : ℕ) : ZMod q))) :
    H * (s ^ (q - 2) % q) % q + x * (r * (s ^ (q - 2) % q) % q) ≡ k [MOD q] := by
  haveI : Fact q.Prime := ⟨hq⟩
  have hSne : ((s : ℕ) : ZMod q) ≠ 0 := by
    rw [Ne, ZMod.natCast_zmod_eq_zero_iff_dvd]; exact hsnq
  have hKne : ((k : ℕ) : ZMod q) ≠ 0 := by
    rw [Ne, ZMod.natCast_zmod_eq_zero_iff_dvd]; exact hknq
  have hAne : ((H : ℕ) : ZMod q) + ((x : ℕ) : ZMod q) * ((r : ℕ) : ZMod q) ≠ 0 := by
    intro h0
    apply hSne
    rw [hs_cast, h0, mul_zero]
  rw [← ZMod.natCast_eq_natCast_iff]
  push_cast [ZMod.natCast_mod]
  rw [zmod_pow_sub_two_inv hSne, hs_cast, mul_inv_rev, inv_inv]
  have hfact : ((H : ℕ) : ZMod q) *
        ((((H : ℕ) : ZMod q) + ((x : ℕ) : ZMod q) * ((r : ℕ) : ZMod q))⁻¹ * ((k : ℕ) : ZMod q))
      + ((x : ℕ) : ZMod q) * (((r : ℕ) : ZMod q) *
        ((((H : ℕ) : ZMod q) + ((x : ℕ) : ZMod q) * ((r : ℕ) : ZMod q))⁻¹ * ((k : ℕ) : ZMod q)))
      = ((((H : ℕ) : ZMod q) + ((x : ℕ) : ZMod q) * ((r : ℕ) : ZMod q)) *
          (((H : ℕ) : ZMod q) + ((x : ℕ) : ZMod q) * ((r : ℕ) : ZMod q))⁻¹) *
          ((k : ℕ) : ZMod q) := by ring
  rw [hfact, mul_inv_cancel₀ hAne, one_mul]

/-- The s component produced by `dsaPrimSign`, viewed in `ZMod q`, is
k⁻¹·(H + x·r). -/
theorem dsa_sign_s_cast (q H x r k : ℕ) (hq : q.Prime) (hknq : ¬ q ∣ k) :
    ((k ^ (q - 2) % q * (H + x * r) % q : ℕ) : ZMod q) =
      (((k : ℕ) : ZMod q))⁻¹ *
        (((H : ℕ) : ZMod q) + ((x : ℕ) : ZMod q) * ((r : ℕ) : ZMod q)) := by
  haveI : Fact q.Prime := ⟨hq⟩
  have hKne : ((k : ℕ) : ZMod q) ≠ 0 := by
    rw [Ne, ZMod.natCast_zmod_eq_zero_iff_dvd]; exact hknq
  push_cast [ZMod.natCast_mod]
  rw [zmod_pow_sub_two_inv hKne]

/-- Correctness of the primitive DSA scheme: a signature produced by
`dsaPrimSign` with a nonce in (0, q) and nonzero components is accepted by
`dsaPrimVerify` against the public value y = g^x mod p, whenever
g^q ≡ 1 (mod p) and q is prime. -/
theorem dsa_verify_of_sign (p q g x H k : ℕ) (hp1 : 1 < p) (hq : q.Prime)
    (hgq : g ^ q % p = 1) (hk0 : 0 < k) (hkq : k < q)
    (hr0 : (dsaPrimSign p q g x H k).1 ≠ 0)
    (hs0 : (dsaPrimSign p q g x H k).2 ≠ 0) :
    dsaPrimVerify p q g (g ^ x % p) H (dsaPrimSign p q g x H k) = true := by
  simp only [dsaPrimSign] at hr0 hs0 ⊢
  simp only [dsaPrimVerify, Bool.and_eq_true, decide_eq_true_eq]
  have hknq : ¬ q ∣ k := fun hd => hk0.ne' (Nat.eq_zero_of_dvd_of_lt hd hkq)
  have hsq : k ^ (q - 2) % q * (H + x * (g ^ k % p % q)) % q < q :=
    Nat.mod_lt _ hq.pos
  have hsnq : ¬ q ∣ k ^ (q - 2) % q * (H + x * (g ^ k % p % q)) % q :=
    fun hd => hs0 (Nat.eq_zero_of_dvd_of_lt hd hsq)
  constructor
  · exact ⟨Nat.pos_of_ne_zero hr0, Nat.mod_lt _ hq.pos,
      Nat.pos_of_ne_zero hs0, hsq⟩
  · have hcong := dsa_exponent_congr q H x (g ^ k % p % q) k
      (k ^ (q - 2) % q * (H + x * (g ^ k % p % q)) % q) hq hknq hsnq
      (dsa_sign_s_cast q H x (g ^ k % p % q) k hq hknq)
    have h1 : (g ^ x % p) ^
          ((g ^ k % p % q) *
            ((k ^ (q - 2) % q * (H + x * (g ^ k % p % q)) % q) ^ (q - 2) % q) % q) % p
        = g ^ (x * ((g ^ k % p % q) *
            ((k ^ (q - 2) % q * (H + x * (g ^ k % p % q)) % q) ^ (q - 2) % q) % q)) % p := by
      rw [← Nat.pow_mod, ← pow_mul]
    rw [Nat.mul_mod, h1, ← Nat.mul_mod, ← pow_add]
    rw [pow_mod_congr p q g _ k hp1 hgq hcong]

/-! ## Claim theorems -/

/-- C1: for every private key over a consistent DSA domain (p prime, q prime,
g of order dividing q mod p, y = g^x mod p), every message and every digest
algorithm, and every nonce the primitive draws in (0, q) whose resulting
signature components are nonzero (the primitive redraws otherwise),
`sign(message, alg)` followed by `verify(signature, message, alg)` on the key
returned by `public_key()` succeeds. -/
theorem sign_then_verify_succeeds (priv : DsaPrivateKey) (data : List ℕ)
    (alg : DigestAlg) (k : ℕ)
    (hp : Nat.Prime priv.pkey.p) (hq : Nat.Prime priv.pkey.q)
    (hgq : priv.pkey.g ^ priv.pkey.q % priv.pkey.p = 1)
    (hy : priv.pkey.y = priv.pkey.g ^ priv.pkey.x % priv.pkey.p)
    (hk0 : 0 < k) (hkq : k < priv.pkey.q)
    (hr0 : (dsaPrimSign priv.pkey.p priv.pkey.q priv.pkey.g priv.pkey.x (alg data) k).1 ≠ 0)
    (hs0 : (dsaPrimSign priv.pkey.p priv.pkey.q priv.pkey.g priv.pkey.x (alg data) k).2 ≠ 0) :
    ∃ (signature : ℕ × ℕ) (pub : DsaPublicKey),
      priv.sign data alg k = Except.ok signature ∧
      priv.public_key = Except.ok pub ∧
      pub.verify signature data alg = Except.ok () := by
  obtain ⟨⟨p, q, g, x, y⟩⟩ := priv
  dsimp only at hp hq hgq hy hk0 hkq hr0 hs0
  subst hy
  have hv := dsa_verify_of_sign p q g x (alg data) k hp.one_lt hq hgq hk0 hkq hr0 hs0
  refine ⟨dsaPrimSign p q g x (alg data) k, ⟨⟨p, q, g, g ^ x % p⟩⟩, rfl, rfl, ?_⟩
  show verifyFromPrim
      (pkeyCtxVerify ⟨p, q, g, g ^ x % p⟩ (alg data) (dsaPrimSign p q g x (alg data) k)) =
    Except.ok ()
  simp only [pkeyCtxVerify]
  rw [hv]
  rfl

/-- Witness for C1 at the concrete domain p = 23, q = 11, g = 2 (2^11 ≡ 1 mod
23), x = 7, y = 13, message [1, 2, 3], the constant digest 6 and nonce 3. -/
theorem sign_then_verify_succeeds_witness :
    ∃ (signature : ℕ × ℕ) (pub : DsaPublicKey),
      DsaPrivateKey.sign ⟨⟨23, 11, 2, 7, 13⟩⟩ [1, 2, 3] (fun _ => 6) 3 =
        Except.ok signature ∧
      DsaPrivateKey.public_key ⟨⟨23, 11, 2, 7, 13⟩⟩ = Except.ok pub ∧
      DsaPublicKey.verify pub signature [1, 2, 3] (fun _ => 6) = Except.ok () :=
  sign_then_verify_succeeds ⟨⟨23, 11, 2, 7, 13⟩⟩ [1, 2, 3] (fun _ => 6) 3
    (by decide) (by decide) (by decide) (by decide) (by decide) (by decide)
    (by decide) (by decide)

/-- C2: `verify` succeeds exactly when the primitive reports `Ok(true)`; every
other primitive outcome — a reported error (malformed encoding, internal
failure) or an explicit invalid — collapses to the single error
`InvalidSignature`, and `DsaPublicKey::verify` is that collapsing applied to
the primitive's verification result on the recomputed digest. -/
theorem verify_error_collapses :
    (∀ res : Except ErrorStack Bool,
      (verifyFromPrim res = Except.ok () ↔ res = Except.ok true) ∧
      (res ≠ Except.ok true →
        verifyFromPrim res = Except.error CryptographyError.invalidSignature)) ∧
    (∀ (key : DsaPublicKey) (signature : ℕ × ℕ) (data : List ℕ) (alg : DigestAlg),
      key.verify signature data alg =
        verifyFromPrim (pkeyCtxVerify key.pkey (alg data) signature)) := by
  constructor
  · intro res
    rcases res with e | b
    · exact ⟨by simp [verifyFromPrim, unwrapOr], fun _ => rfl⟩
    · cases b
      · exact ⟨by simp [verifyFromPrim, unwrapOr], fun _ => rfl⟩
      · exact ⟨by simp [verifyFromPrim, unwrapOr], fun h => absurd rfl h⟩
  · intro key signature data alg
    rfl

/-- Witness for C2: a primitive-reported error and a primitive-reported
invalid both collapse to `InvalidSignature`. -/
theorem verify_error_collapses_witness :
    verifyFromPrim (Except.error ErrorStack.malformedInput) =
      Except.error CryptographyError.invalidSignature ∧
    verifyFromPrim (Except.ok false) =
      Except.error CryptographyError.invalidSignature :=
  ⟨(verify_error_collapses.1 (Except.error ErrorStack.malformedInput)).2 (by simp),
   (verify_error_collapses.1 (Except.ok false)).2 (by simp)⟩

/-- A nonnegative host integer converts to its natural value. -/
theorem py_int_to_bn_nonneg {z : ℤ} (h : 0 ≤ z) :
    py_int_to_bn z = Except.ok z.toNat := by
  rw [py_int_to_bn, if_neg (not_lt.mpr h)]

/-- A negative host integer fails the conversion with `InvalidNumeric`. -/
theorem py_int_to_bn_neg {z : ℤ} (h : z < 0) :
    py_int_to_bn z = Except.error CryptographyError.invalidNumeric := by
  rw [py_int_to_bn, if_pos h]

/-- C3 counterexample: at (p, q, g) = (23, 7, 2) — where 7 does not divide
22, so the primitive library rejects the triple as algebraically
inconsistent — `from_parameter_numbers` aborts with a panic (the source
`.unwrap()`s the primitive result); it does not return an `InvalidParameters`
error to the caller. -/
theorem from_parameter_numbers_reject_counterexample :
    opensslFromPqg 23 7 2 = Except.error ErrorStack.algebraicReject ∧
    from_parameter_numbers ⟨23, 7, 2⟩ = POutcome.panicked ∧
    from_parameter_numbers ⟨23, 7, 2⟩ ≠
      POutcome.err CryptographyError.invalidParameters := by
  have hrej : ¬ pqgConsistent 23 7 2 := by decide
  refine ⟨?_, ?_, ?_⟩
  · rw [opensslFromPqg, if_neg hrej]
  · decide
  · decide

/-- C3 amended: for every (p, q, g) triple of nonnegative components that the
primitive library rejects as algebraically inconsistent, the from-components
constructor does not return at all: the rejection is `.unwrap()`ed, so the
call aborts with a panic instead of failing with `InvalidParameters`. -/
theorem from_parameter_numbers_reject_panics (numbers : DsaParameterNumbers)
    (h0p : 0 ≤ numbers.p) (h0q : 0 ≤ numbers.q) (h0g : 0 ≤ numbers.g)
    (hrej : ¬ pqgConsistent numbers.p.toNat numbers.q.toNat numbers.g.toNat) :
    from_parameter_numbers numbers = POutcome.panicked := by
  simp only [from_parameter_numbers, py_int_to_bn_nonneg h0p, py_int_to_bn_nonneg h0q,
    py_int_to_bn_nonneg h0g, opensslFromPqg, if_neg hrej]

/-- Witness for the amended C3 at the rejected triple (23, 7, 2). -/
theorem from_parameter_numbers_reject_panics_witness :
    from_parameter_numbers ⟨23, 7, 2⟩ = POutcome.panicked :=
  from_parameter_numbers_reject_panics ⟨23, 7, 2⟩ (by decide) (by decide)
    (by decide) (by decide)

/-- C4: constructing a `DsaParameters` from a component triple that the
primitive accepts (nonnegative and algebraically consistent) and then calling
`parameter_numbers()` returns exactly the same (p, q, g) triple. -/
theorem parameter_numbers_roundtrip (numbers : DsaParameterNumbers)
    (h0p : 0 ≤ numbers.p) (h0q : 0 ≤ numbers.q) (h0g : 0 ≤ numbers.g)
    (hacc : pqgConsistent numbers.p.toNat numbers.q.toNat numbers.g.toNat) :
    ∃ ps : DsaParameters, from_parameter_numbers numbers = POutcome.ok ps ∧
      ps.parameter_numbers = Except.ok numbers := by
  rcases numbers with ⟨zp, zq, zg⟩
  dsimp only at h0p h0q h0g hacc
  refine ⟨⟨⟨zp.toNat, zq.toNat, zg.toNat⟩⟩, ?_, ?_⟩
  · simp only [from_parameter_numbers, py_int_to_bn_nonneg h0p, py_int_to_bn_nonneg h0q,
      py_int_to_bn_nonneg h0g, opensslFromPqg, if_pos hacc]
  · unfold DsaParameters.parameter_numbers bn_to_py_int
    dsimp only
    rw [Int.toNat_of_nonneg h0p, Int.toNat_of_nonneg h0q, Int.toNat_of_nonneg h0g]

/-- Witness for C4 at the accepted triple (23, 11, 2). -/
theorem parameter_numbers_roundtrip_witness :
    ∃ ps : DsaParameters, from_parameter_numbers ⟨23, 11, 2⟩ = POutcome.ok ps ∧
      ps.parameter_numbers = Except.ok ⟨23, 11, 2⟩ :=
  parameter_numbers_roundtrip ⟨23, 11, 2⟩ (by decide) (by decide) (by decide)
    (by decide)

/-- C5: `public_key()` called twice on a private key yields two public keys
that satisfy the public-key equality predicate (structural equality over
p, q, g, y) against each other. -/
theorem public_key_twice_equal (key : DsaPrivateKey) :
    ∃ k1 k2 : DsaPublicKey, key.public_key = Except.ok k1 ∧
      key.public_key = Except.ok k2 ∧ DsaPublicKey.eqPy k1 k2 = true := by
  refine ⟨⟨⟨key.pkey.p, key.pkey.q, key.pkey.g, key.pkey.y⟩⟩,
    ⟨⟨key.pkey.p, key.pkey.q, key.pkey.g, key.pkey.y⟩⟩, rfl, rfl, ?_⟩
  simp [DsaPublicKey.eqPy, public_eq]

/-- C6: supplying any negative integer component to any of the three
from-components constructors fails with `InvalidNumeric` (propagated from the
numeric bridge before the primitive constructor is reached); no negative
input is ever accepted. -/
theorem from_components_negative_fails :
    (∀ numbers : DsaParameterNumbers,
      numbers.p < 0 ∨ numbers.q < 0 ∨ numbers.g < 0 →
      from_parameter_numbers numbers = POutcome.err CryptographyError.invalidNumeric) ∧
    (∀ numbers : DsaPublicNumbers,
      numbers.parameter_numbers.p < 0 ∨ numbers.parameter_numbers.q < 0 ∨
        numbers.parameter_numbers.g < 0 ∨ numbers.y < 0 →
      from_public_numbers numbers = POutcome.err CryptographyError.invalidNumeric) ∧
    (∀ numbers : DsaPrivateNumbers,
      numbers.public_numbers.parameter_numbers.p < 0 ∨
        numbers.public_numbers.parameter_numbers.q < 0 ∨
        numbers.public_numbers.parameter_numbers.g < 0 ∨
        numbers.x < 0 ∨ numbers.public_numbers.y < 0 →
      from_private_numbers numbers = POutcome.err CryptographyError.invalidNumeric) := by
  refine ⟨?_, ?_, ?_⟩
  · rintro ⟨zp, zq, zg⟩ h
    dsimp only at h
    by_cases h1 : zp < 0
    · simp only [from_parameter_numbers, py_int_to_bn_neg h1]
    · have h1' : 0 ≤ zp := not_lt.mp h1
      by_cases h2 : zq < 0
      · simp only [from_parameter_numbers, py_int_to_bn_nonneg h1', py_int_to_bn_neg h2]
      · have h2' : 0 ≤ zq := not_lt.mp h2
        have h3 : zg < 0 := by omega
        simp only [from_parameter_numbers, py_int_to_bn_nonneg h1',
          py_int_to_bn_nonneg h2', py_int_to_bn_neg h3]
  · rintro ⟨zy, zp, zq, zg⟩ h
    dsimp only at h
    by_cases h1 : zp < 0
    · simp only [from_public_numbers, py_int_to_bn_neg h1]
    · have h1' : 0 ≤ zp := not_lt.mp h1
      by_cases h2 : zq < 0
      · simp only [from_public_numbers, py_int_to_bn_nonneg h1', py_int_to_bn_neg h2]
      · have h2' : 0 ≤ zq := not_lt.mp h2
        by_cases h3 : zg < 0
        · simp only [from_public_numbers, py_int_to_bn_nonneg h1',
            py_int_to_bn_nonneg h2', py_int_to_bn_neg h3]
        · have h3' : 0 ≤ zg := not_lt.mp h3
          have h4 : zy < 0 := by omega
          simp only [from_public_numbers, py_int_to_bn_nonneg h1',
            py_int_to_bn_nonneg h2', py_int_to_bn_nonneg h3', py_int_to_bn_neg h4]
  · rintro ⟨zx, zy, zp, zq, zg⟩ h
    dsimp only at h
    by_cases h1 : zp < 0
    · simp only [from_private_numbers, py_int_to_bn_neg h1]
    · have h1' : 0 ≤ zp := not_lt.mp h1
      by_cases h2 : zq < 0
      · simp only [from_private_numbers, py_int_to_bn_nonneg h1', py_int_to_bn_neg h2]
      · have h2' : 0 ≤ zq := not_lt.mp h2
        by_cases h3 : zg < 0
        · simp only [from_private_numbers, py_int_to_bn_nonneg h1',
            py_int_to_bn_nonneg h2', py_int_to_bn_neg h3]
        · have h3' : 0 ≤ zg := not_lt.mp h3
          by_cases h4 : zx < 0
          · simp only [from_private_numbers, py_int_to_bn_nonneg h1',
              py_int_to_bn_nonneg h2', py_int_to_bn_nonneg h3', py_int_to_bn_neg h4]
          · have h4' : 0 ≤ zx := not_lt.mp h4
            have h5 : zy < 0 := by omega
            simp only [from_private_numbers, py_int_to_bn_nonneg h1',
              py_int_to_bn_nonneg h2', py_int_to_bn_nonneg h3',
              py_int_to_bn_nonneg h4', py_int_to_bn_neg h5]

/-- Witness for C6: one negative component in each constructor. -/
theorem from_components_negative_fails_witness :
    from_parameter_numbers ⟨-1, 11, 2⟩ =
      POutcome.err CryptographyError.invalidNumeric ∧
    from_public_numbers ⟨-5, ⟨23, 11, 2⟩⟩ =
      POutcome.err CryptographyError.invalidNumeric ∧
    from_private_numbers ⟨-7, ⟨13, ⟨23, 11, 2⟩⟩⟩ =
      POutcome.err CryptographyError.invalidNumeric :=
  ⟨from_components_negative_fails.1 ⟨-1, 11, 2⟩ (by decide),
   from_components_negative_fails.2.1 ⟨-5, ⟨23, 11, 2⟩⟩ (by decide),
   from_components_negative_fails.2.2 ⟨-7, ⟨13, ⟨23, 11, 2⟩⟩⟩ (by decide)⟩

/-- Bit length of a natural number, following the spec's words "bit length of
p" (zero for zero, `log2 + 1` otherwise), for comparison with the source's
`num_bits`. -/
def spec_bit_length (n : ℕ) : ℤ :=
  if n = 0 then 0 else ((Nat.log2 n + 1 : ℕ) : ℤ)

/-- The source's bit count (`Nat.size`) agrees with `log2 + 1` on nonzero
input. -/
theorem size_eq_log2_succ (n : ℕ) (hn : n ≠ 0) : n.size = n.log2 + 1 :=
  le_antisymm (Nat.size_le.mpr Nat.lt_log2_self) (Nat.lt_size.mpr (Nat.log2_self_le hn))

/-- The value `num_bits` computes is the spec's bit length. -/
theorem num_bits_eq_spec_bit_length (n : ℕ) : num_bits n = spec_bit_length n := by
  by_cases hn : n = 0
  · subst hn; simp [num_bits, spec_bit_length]
  · rw [num_bits, spec_bit_length, if_neg hn, size_eq_log2_succ n hn]

/-- C7: `key_size` on a private key and on a public key returns the bit
length of the prime modulus p, and (whenever that bit count is in 32-bit
range, as it always is for a `BIGNUM`) the value is representable as an
unsigned 32-bit integer: nonnegative and below 2^32. -/
theorem key_size_is_bit_length (kpriv : DsaPrivateKey) (kpub : DsaPublicKey)
    (hbp : Nat.size kpriv.pkey.p < 2 ^ 32) (hbq : Nat.size kpub.pkey.p < 2 ^ 32) :
    kpriv.key_size = spec_bit_length kpriv.pkey.p ∧
    kpub.key_size = spec_bit_length kpub.pkey.p ∧
    0 ≤ kpriv.key_size ∧ kpriv.key_size < 2 ^ 32 ∧
    0 ≤ kpub.key_size ∧ kpub.key_size < 2 ^ 32 := by
  refine ⟨num_bits_eq_spec_bit_length _, num_bits_eq_spec_bit_length _,
    Int.natCast_nonneg _, ?_, Int.natCast_nonneg _, ?_⟩
  · show (Nat.size kpriv.pkey.p : ℤ) < 2 ^ 32
    exact_mod_cast hbp
  · show (Nat.size kpub.pkey.p : ℤ) < 2 ^ 32
    exact_mod_cast hbq

/-- Witness for C7 at the keys with p = 23 (bit length 5). -/
theorem key_size_is_bit_length_witness :
    DsaPrivateKey.key_size ⟨⟨23, 11, 2, 7, 13⟩⟩ = spec_bit_length 23 ∧
    DsaPublicKey.key_size ⟨⟨23, 11, 2, 13⟩⟩ = spec_bit_length 23 ∧
    0 ≤ DsaPrivateKey.key_size ⟨⟨23, 11, 2, 7, 13⟩⟩ ∧
    DsaPrivateKey.key_size ⟨⟨23, 11, 2, 7, 13⟩⟩ < 2 ^ 32 ∧
    0 ≤ DsaPublicKey.key_size ⟨⟨23, 11, 2, 13⟩⟩ ∧
    DsaPublicKey.key_size ⟨⟨23, 11, 2, 13⟩⟩ < 2 ^ 32 :=
  key_size_is_bit_length ⟨⟨23, 11, 2, 7, 13⟩⟩ ⟨⟨23, 11, 2, 13⟩⟩
    (Nat.lt_of_le_of_lt (Nat.size_le.mpr (by decide : (23 : ℕ) < 2 ^ 5))
      (by decide : (5 : ℕ) < 2 ^ 32))
    (Nat.lt_of_le_of_lt (Nat.size_le.mpr (by decide : (23 : ℕ) < 2 ^ 5))
      (by decide : (5 : ℕ) < 2 ^ 32))

/-- Method calls available on a `DsaPrivateKey` receiver, with their
arguments. -/
inductive PrivOp where
  | signOp (data : List ℕ) (alg : DigestAlg) (k : ℕ)
  | publicKeyOp
  | parametersOp
  | privateNumbersOp
  | keySizeOp

/-- Result of a `DsaPrivateKey` method call. -/
inductive PrivResult where
  | sigR (v : Except CryptographyError (ℕ × ℕ))
  | pubR (v : Except CryptographyError DsaPublicKey)
  | paramsR (v : Except CryptographyError DsaParameters)
  | numsR (v : Except CryptographyError DsaPrivateNumbers)
  | sizeR (v : ℤ)

/-- Method calls available on a `DsaPublicKey` receiver. -/
inductive PubOp where
  | verifyOp (signature : ℕ × ℕ) (data : List ℕ) (alg : DigestAlg)
  | parametersOp
  | publicNumbersOp
  | keySizeOp
  | eqOp (other : DsaPublicKey)
  | copyOp

/-- Result of a `DsaPublicKey` method call. -/
inductive PubResult where
  | unitR (v : Except CryptographyError Unit)
  | paramsR (v : Except CryptographyError DsaParameters)
  | numsR (v : Except CryptographyError DsaPublicNumbers)
  | sizeR (v : ℤ)
  | boolR (v : Bool)
  | keyR (v : DsaPublicKey)

/-- Method calls available on a `DsaParameters` receiver. The drawn secret
exponent of `generate_private_key` is its explicit argument. -/
inductive ParamsOp where
  | generatePrivateKeyOp (x : ℕ)
  | parameterNumbersOp

/-- Result of a `DsaParameters` method call. -/
inductive ParamsResult where
  | privR (v : Except CryptographyError DsaPrivateKey)
  | numsR (v : Except CryptographyError DsaParameterNumbers)

/-- One method call on a `DsaPrivateKey` receiver, returning the receiver
state after the call together with the result. The source methods take
`&self` on a `frozen` pyclass, so the receiver state the embedding threads
through is the one the method body leaves behind. -/
def DsaPrivateKey.step (key : DsaPrivateKey) (op : PrivOp) :
    DsaPrivateKey × PrivResult :=
  match op with
  | .signOp data alg k => (key, .sigR (key.sign data alg k))
  | .publicKeyOp => (key, .pubR key.public_key)
  | .parametersOp => (key, .paramsR key.parameters)
  | .privateNumbersOp => (key, .numsR key.private_numbers)
  | .keySizeOp => (key, .sizeR key.key_size)

/-- One method call on a `DsaPublicKey` receiver. -/
def DsaPublicKey.step (key : DsaPublicKey) (op : PubOp) :
    DsaPublicKey × PubResult :=
  match op with
  | .verifyOp signature data alg => (key, .unitR (key.verify signature data alg))
  | .parametersOp => (key, .paramsR key.parameters)
  | .publicNumbersOp => (key, .numsR key.public_numbers)
  | .keySizeOp => (key, .sizeR key.key_size)
  | .eqOp other => (key, .boolR (key.eqPy other))
  | .copyOp => (key, .keyR key.copyPy)

/-- One method call on a `DsaParameters` receiver. -/
def DsaParameters.step (ps : DsaParameters) (op : ParamsOp) :
    DsaParameters × ParamsResult :=
  match op with
  | .generatePrivateKeyOp x => (ps, .privR (ps.generate_private_key x))
  | .parameterNumbersOp => (ps, .numsR (ps.parameter_numbers))

/-- C8: `parameters()` on a private key and on a public key returns a
ParameterSet that is a fresh value carrying exactly the key's (p, q, g), and
the returned value shares no state with the key: every operation on the
returned ParameterSet leaves it (and a fortiori the key, which the
operations cannot even reach) unchanged, and repeated calls return the same
independent value. -/
theorem parameters_returns_independent_clone (kpriv : DsaPrivateKey)
    (kpub : DsaPublicKey)
    (hpriv : pqgConsistent kpriv.pkey.p kpriv.pkey.q kpriv.pkey.g)
    (hpub : pqgConsistent kpub.pkey.p kpub.pkey.q kpub.pkey.g) :
    ∃ ps1 ps2 : DsaParameters,
      kpriv.parameters = Except.ok ps1 ∧ kpub.parameters = Except.ok ps2 ∧
      ps1.dsa = ⟨kpriv.pkey.p, kpriv.pkey.q, kpriv.pkey.g⟩ ∧
      ps2.dsa = ⟨kpub.pkey.p, kpub.pkey.q, kpub.pkey.g⟩ ∧
      (∀ op : ParamsOp, (DsaParameters.step ps1 op).1 = ps1) ∧
      (∀ op : ParamsOp, (DsaParameters.step ps2 op).1 = ps2) := by
  refine ⟨⟨⟨kpriv.pkey.p, kpriv.pkey.q, kpriv.pkey.g⟩⟩,
    ⟨⟨kpub.pkey.p, kpub.pkey.q, kpub.pkey.g⟩⟩, ?_, ?_, rfl, rfl,
    fun op => by cases op <;> rfl, fun op => by cases op <;> rfl⟩
  · simp only [DsaPrivateKey.parameters, clone_dsa_params, opensslFromPqg,
      if_pos hpriv]
  · simp only [DsaPublicKey.parameters, clone_dsa_params, opensslFromPqg,
      if_pos hpub]

/-- Witness for C8 at the concrete key pair over (p, q, g) = (23, 11, 2). -/
theorem parameters_returns_independent_clone_witness :
    ∃ ps1 ps2 : DsaParameters,
      DsaPrivateKey.parameters ⟨⟨23, 11, 2, 7, 13⟩⟩ = Except.ok ps1 ∧
      DsaPublicKey.parameters ⟨⟨23, 11, 2, 13⟩⟩ = Except.ok ps2 ∧
      ps1.dsa = ⟨23, 11, 2⟩ ∧
      ps2.dsa = ⟨23, 11, 2⟩ ∧
      (∀ op : ParamsOp, (DsaParameters.step ps1 op).1 = ps1) ∧
      (∀ op : ParamsOp, (DsaParameters.step ps2 op).1 = ps2) :=
  parameters_returns_independent_clone ⟨⟨23, 11, 2, 7, 13⟩⟩ ⟨⟨23, 11, 2, 13⟩⟩
    (by decide) (by decide)

/-- C9: no wrapper object is mutated after construction: every method call on
a `DsaPrivateKey`, `DsaPublicKey` or `DsaParameters` receiver leaves the
receiver's observable state unchanged (the structs are `frozen` and every
method takes the receiver by shared reference; derive/clone operations build
fresh values from copied components). -/
theorem objects_never_mutated :
    (∀ (key : DsaPrivateKey) (op : PrivOp), (DsaPrivateKey.step key op).1 = key) ∧
    (∀ (key : DsaPublicKey) (op : PubOp), (DsaPublicKey.step key op).1 = key) ∧
    (∀ (ps : DsaParameters) (op : ParamsOp), (DsaParameters.step ps op).1 = ps) := by
  refine ⟨fun key op => ?_, fun key op => ?_, fun ps op => ?_⟩ <;>
    cases op <;> rfl

/-- C10: `__copy__` on a public key returns the receiver itself (no new
clone), and the returned object satisfies the public-key equality predicate
against the original. -/
theorem copy_is_identity (key : DsaPublicKey) :
    key.copyPy = key ∧ DsaPublicKey.eqPy key.copyPy key = true := by
  refine ⟨rfl, ?_⟩
  simp [DsaPublicKey.copyPy, DsaPublicKey.eqPy, public_eq]
